import Mathlib

/-!
Verification of the request-scoping and host-selection core of chproxy
(src/scope.go) against its natural-language specification.

The Go code is shallowly embedded: every uint32 quantity is a `Nat`
together with an explicit `% u32` wherever the machine arithmetic wraps;
structs become structures; functions that mutate a struct in place become
functions returning the updated value.  Concurrency is modelled at the
granularity of whole atomic operations executed sequentially.
-/

/-- The modulus of Go uint32 arithmetic (2 to the power 32). -/
def u32 : Nat := 4294967296

/-- Rendering of the double-quote character used by the Go format verb %q.
Go additionally escapes special characters inside the quoted text; the
claims under study only need the plain quoting. -/
def goQuote (s : String) : String :=
  (Char.ofNat 34).toString ++ s ++ (Char.ofNat 34).toString

/-- Rendering of a single-quote character (used by the KILL QUERY payload). -/
def squote : String := (Char.ofNat 39).toString

/-! ## queryCounter (scope.go lines 284-292)

`value` is carried as the bare Nat below 2 to the 32; the struct wrapper is
dropped since it has exactly one field. -/

/-- Embedding of queryCounter.runningQueries: an atomic load of the value. -/
def qcRunningQueries (v : Nat) : Nat := v

/-- Embedding of queryCounter.inc: atomic.AddUint32(value, 1), returning the
post-increment value. -/
def qcInc (v : Nat) : Nat := (v + 1) % u32

/-- Embedding of queryCounter.dec: atomic.AddUint32(value, complement of 0),
which adds 2 to the 32 minus 1 in wrapping uint32 arithmetic. -/
def qcDec (v : Nat) : Nat := (v + (u32 - 1)) % u32

/-! ## URL and the entity structs (scope.go lines 150-182, 242-249) -/

/-- The parts of net/url.URL that scope.go reads: Scheme, Host and the rest
of the rendered address.  URL.render stands in for url.URL.String(). -/
structure URL where
  scheme : String
  host : String
  path : String
deriving DecidableEq

/-- Rendering of url.URL.String() for the simple absolute URLs used here. -/
def URL.render (u : URL) : String := u.scheme ++ "://" ++ u.host ++ u.path

/-- Embedding of the user struct (proxy-level user). -/
structure User where
  toUser : String
  toCluster : String
  denyHTTP : Bool
  denyHTTPS : Bool
  allowedNetworks : List String
  name : String
  password : String
  maxExecutionTime : Nat
  maxConcurrentQueries : Nat
  queryCounter : Nat
deriving DecidableEq

/-- Embedding of the clusterUser struct. -/
structure ClusterUser where
  name : String
  password : String
  maxExecutionTime : Nat
  maxConcurrentQueries : Nat
  queryCounter : Nat
deriving DecidableEq

/-- Embedding of the host struct: penalty and active are uint32 fields,
queryCounter is the embedded counter value. -/
structure Host where
  penalty : Nat
  active : Nat
  addr : URL
  queryCounter : Nat
deriving DecidableEq

/-- Embedding of host.isActive: atomic.LoadUint32(active) == 1. -/
def Host.isActive (h : Host) : Bool := h.active == 1

/-- Embedding of host.runningQueries: counter value plus penalty in
wrapping uint32 arithmetic (scope.go lines 236-240). -/
def Host.runningQueries (h : Host) : Nat := (h.queryCounter + h.penalty) % u32

/-- Embedding of the cluster struct. -/
structure Cluster where
  nextIdx : Nat
  hosts : List Host
  users : List (String × ClusterUser)
  killQueryUserName : String
  killQueryUserPassword : String
  heartBeatInterval : Nat
deriving DecidableEq

/-- Embedding of the scope struct. -/
structure Scope where
  id : Nat
  host : Host
  cluster : Cluster
  user : User
  clusterUser : ClusterUser
deriving DecidableEq

/-! ## Penalty machinery (scope.go lines 214-233)

penalize() is modelled together with its deferred decay: `pending` counts
the subtract-5 timers scheduled by penalize() and not yet fired.  A decay
event stands for one scheduled timer firing penaltyDuration (10 s) later;
firing order and real time do not affect the counters. -/

/-- The constant penaltyMaxSize from scope.go. -/
def penaltyMaxSize : Nat := 300

/-- The constant penaltySize from scope.go. -/
def penaltySize : Nat := 5

/-- The constant penaltyDuration from scope.go, in seconds. -/
def penaltyDurationSec : Nat := 10

/-- An atomic step of the penalty subsystem: a penalize() call, or the
firing of one previously scheduled subtract-5 decay timer. -/
inductive PenaltyEvent where
  | penalize : PenaltyEvent
  | decay : PenaltyEvent
deriving DecidableEq

/-- The observable penalty state of one host: the uint32 penalty field and
the number of scheduled decay timers not yet fired. -/
structure PenaltyState where
  penalty : Nat
  pending : Nat
deriving DecidableEq

/-- One step of the penalty subsystem.  penalize: if penalty is already at
penaltyMaxSize or above, do nothing (and schedule nothing); otherwise add
penaltySize and schedule one decay.  decay: a scheduled timer fires,
adding the two-complement of penaltySize minus 1 (that is, 2 to the 32
minus penaltySize) in wrapping uint32 arithmetic; a decay event only
exists while a timer is outstanding. -/
def penaltyStep (st : PenaltyState) : PenaltyEvent → PenaltyState
  | PenaltyEvent.penalize =>
    if st.penalty ≥ penaltyMaxSize then st
    else { penalty := (st.penalty + penaltySize) % u32, pending := st.pending + 1 }
  | PenaltyEvent.decay =>
    if st.pending = 0 then st
    else { penalty := (st.penalty + (u32 - penaltySize)) % u32, pending := st.pending - 1 }

/-- The penalty state of a host that started with penalty 0 after a
sequence of penalize calls and timer firings. -/
def runPenalty (evs : List PenaltyEvent) : PenaltyState :=
  evs.foldl penaltyStep { penalty := 0, pending := 0 }

/-! ## Basic counter lemmas -/

lemma u32_pos : 0 < u32 := by decide

lemma qcDec_qcInc (v : Nat) (hv : v < u32) : qcDec (qcInc v) = v := by
  unfold qcDec qcInc u32 at *
  omega

/-- C10: Counter operations use wrapping 32-bit arithmetic: for every
current uint32 value v, inc() returns (v + 1) mod 2^32 and dec() after
inc() restores v; dec() on a counter holding 0 does not fail and leaves
the counter at 2^32 - 1. -/
theorem queryCounter_wrapping (v : Nat) (hv : v < u32) :
    qcInc v = (v + 1) % u32 ∧ qcDec (qcInc v) = v ∧ qcDec 0 = u32 - 1 := by
  refine ⟨rfl, qcDec_qcInc v hv, ?_⟩
  decide

/-- Witness for queryCounter_wrapping at v = 0. -/
theorem queryCounter_wrapping_witness :
    0 < u32 ∧ (qcInc 0 = (0 + 1) % u32 ∧ qcDec (qcInc 0) = 0 ∧ qcDec 0 = u32 - 1) :=
  ⟨by decide, queryCounter_wrapping 0 (by decide)⟩

/-! ## Penalty invariant -/

/-- The inductive invariant of the penalty subsystem: the penalty field
always equals penaltySize times the number of outstanding decay timers,
and at most 60 timers are outstanding. -/
def PenaltyInv (st : PenaltyState) : Prop :=
  st.penalty = penaltySize * st.pending ∧ st.pending ≤ 60

lemma penaltyStep_inv (st : PenaltyState) (h : PenaltyInv st) (e : PenaltyEvent) :
    PenaltyInv (penaltyStep st e) := by
  obtain ⟨h1, h2⟩ := h
  unfold penaltySize at h1
  unfold PenaltyInv penaltySize
  cases e with
  | penalize =>
    by_cases hge : st.penalty ≥ penaltyMaxSize
    · simpa [penaltyStep, hge] using ⟨h1, h2⟩
    · have hstep : penaltyStep st PenaltyEvent.penalize =
        { penalty := (st.penalty + penaltySize) % u32, pending := st.pending + 1 } := by
        simp [penaltyStep, hge]
      rw [hstep]
      have hge' : ¬ st.penalty ≥ 300 := by
        unfold penaltyMaxSize at hge
        exact hge
      have hsmall : st.penalty + penaltySize < u32 := by
        unfold penaltySize u32
        omega
      refine ⟨?_, ?_⟩
      · show (st.penalty + penaltySize) % u32 = 5 * (st.pending + 1)
        rw [Nat.mod_eq_of_lt hsmall]
        unfold penaltySize
        omega
      · show st.pending + 1 ≤ 60
        omega
  | decay =>
    by_cases hz : st.pending = 0
    · rw [show penaltyStep st PenaltyEvent.decay = st by simp [penaltyStep, hz]]
      exact ⟨h1, h2⟩
    · have hstep : penaltyStep st PenaltyEvent.decay =
        { penalty := (st.penalty + (u32 - penaltySize)) % u32, pending := st.pending - 1 } := by
        simp [penaltyStep, hz]
      rw [hstep]
      have hp5 : 5 ≤ st.penalty := by omega
      have hsplit : st.penalty + (u32 - penaltySize) = u32 + (st.penalty - penaltySize) := by
        unfold penaltySize u32
        omega
      refine ⟨?_, ?_⟩
      · show (st.penalty + (u32 - penaltySize)) % u32 = 5 * (st.pending - 1)
        rw [hsplit, Nat.add_mod_left,
          Nat.mod_eq_of_lt (by unfold penaltySize u32; omega)]
        unfold penaltySize
        omega
      · show st.pending - 1 ≤ 60
        omega

lemma runPenalty_inv_aux (evs : List PenaltyEvent) :
    ∀ st : PenaltyState, PenaltyInv st → PenaltyInv (evs.foldl penaltyStep st) := by
  induction evs with
  | nil => intro st h; exact h
  | cons e tl ih =>
    intro st h
    exact ih (penaltyStep st e) (penaltyStep_inv st h e)

lemma runPenalty_inv (evs : List PenaltyEvent) : PenaltyInv (runPenalty evs) :=
  runPenalty_inv_aux evs { penalty := 0, pending := 0 } ⟨by decide, by decide⟩

/-- C5: starting from penalty 0, under any sequence of penalize() calls
and firings of their deferred decays, the penalty is always a multiple of
penaltySize (5) and bounded by penaltyMaxSize (300); a penalize() call
finding penalty at or above 300 changes nothing and schedules no decay;
any other penalize() adds exactly 5 and schedules exactly one subtract-5
decay (to fire penaltyDuration, 10 s, later); and once every scheduled
decay has fired the penalty is back at 0. -/
theorem penalize_invariant (evs : List PenaltyEvent) :
    (runPenalty evs).penalty % penaltySize = 0 ∧
    (runPenalty evs).penalty ≤ penaltyMaxSize ∧
    ((runPenalty evs).pending = 0 → (runPenalty evs).penalty = 0) ∧
    ((runPenalty evs).penalty ≥ penaltyMaxSize →
      penaltyStep (runPenalty evs) PenaltyEvent.penalize = runPenalty evs) ∧
    ((runPenalty evs).penalty < penaltyMaxSize →
      penaltyStep (runPenalty evs) PenaltyEvent.penalize =
        { penalty := (runPenalty evs).penalty + penaltySize,
          pending := (runPenalty evs).pending + 1 }) := by
  obtain ⟨h1, h2⟩ := runPenalty_inv evs
  refine ⟨?_, ?_, ?_, ?_, ?_⟩
  · rw [h1]; exact Nat.mul_mod_right _ _
  · rw [h1]; unfold penaltySize penaltyMaxSize; omega
  · intro hz; rw [h1, hz, Nat.mul_zero]
  · intro hge; simp [penaltyStep, hge]
  · intro hlt
    have hsmall : (runPenalty evs).penalty + penaltySize < u32 := by
      unfold penaltyMaxSize at hlt
      unfold penaltySize u32
      omega
    simp [penaltyStep, Nat.not_le_of_lt hlt, Nat.mod_eq_of_lt hsmall]

/-- Witness for penalize_invariant: from the empty history (penalty 0),
one penalize() call yields penalty 5 with one scheduled decay. -/
theorem penalize_invariant_witness :
    penaltyStep (runPenalty []) PenaltyEvent.penalize =
      { penalty := 5, pending := 1 } := by
  have h := (penalize_invariant []).2.2.2.2 (by decide)
  exact h.trans (by decide)

/-! ## Host selection (scope.go lines 251-282)

Hosts are identified by their index in the cluster's host slice; returning
the index models returning the host pointer.  The Go loop
`for i := (idx+1)%l; i != idx; i = (i+1)%l` starts at (idx+1)%l and stops
on reaching idx again, so it performs exactly l-1 iterations; scanLoop
carries that iteration count explicitly.  Sum.inl is the early return of
an active zero-load host, Sum.inr the final candidate index. -/

/-- The zero value of the host struct, for out-of-range slice access
(which cannot occur on a non-empty cluster). -/
def defaultHost : Host :=
  { penalty := 0, active := 0, addr := { scheme := "", host := "", path := "" },
    queryCounter := 0 }

/-- Indexing into the host slice. -/
def hostAt (hs : List Host) (i : Nat) : Host := hs.getD i defaultHost

/-- The round-hosts-checking loop of cluster.getHost (scope.go lines
265-277), scanning from position i with the given remaining iteration
count and current candidate idleIdx whose load is idleN. -/
def scanLoop (hs : List Host) (l : Nat) : Nat → Nat → Nat → Nat → Sum Nat Nat
  | _, 0, idleIdx, _ => Sum.inr idleIdx
  | i, steps + 1, idleIdx, idleN =>
    if (hostAt hs i).isActive = true then
      if (hostAt hs i).runningQueries = 0 then Sum.inl i
      else if (hostAt hs i).runningQueries < idleN then
        scanLoop hs l ((i + 1) % l) steps i ((hostAt hs i).runningQueries)
      else scanLoop hs l ((i + 1) % l) steps idleIdx idleN
    else scanLoop hs l ((i + 1) % l) steps idleIdx idleN

/-- Embedding of cluster.getHost: atomically advance the wrapping cursor,
take its position mod the host count as the rotated start, return the
start host on the fast path when it is active with zero load, otherwise
scan the remaining hosts; finally return none when the surviving
candidate is inactive.  The first component is the selected host index,
the second the cluster with the advanced cursor. -/
def Cluster.getHost (c : Cluster) : Option Nat × Cluster :=
  let nx := (c.nextIdx + 1) % u32
  let c' : Cluster := { c with nextIdx := nx }
  let l := c.hosts.length
  let idx := nx % l
  let idle := hostAt c.hosts idx
  let idleN := idle.runningQueries
  if idleN = 0 ∧ idle.isActive = true then (some idx, c')
  else
    match scanLoop c.hosts l ((idx + 1) % l) (l - 1) idx idleN with
    | Sum.inl i => (some i, c')
    | Sum.inr j =>
      if (hostAt c.hosts j).isActive = true then (some j, c') else (none, c')

/-- The rotated start position chosen by a getHost call on cluster c:
the freshly incremented cursor value reduced mod the host count. -/
def startIdx (c : Cluster) : Nat := ((c.nextIdx + 1) % u32) % c.hosts.length

/-- The host at rotation offset k from the rotated start position. -/
def rotHost (c : Cluster) (k : Nat) : Host :=
  hostAt c.hosts ((startIdx c + k) % c.hosts.length)

lemma rot_index (l i k : Nat) : ((i + 1) % l + k) % l = (i + (k + 1)) % l := by
  rw [Nat.mod_add_mod]
  congr 1
  omega

/-! ### Generic facts about the scan loop -/

lemma scanLoop_all_inactive (hs : List Host) (l : Nat)
    (hIn : ∀ j, j < l → (hostAt hs j).isActive = false) :
    ∀ steps i a n, i < l → scanLoop hs l i steps a n = Sum.inr a := by
  intro steps
  induction steps with
  | zero => intro i a n _; rfl
  | succ st ih =>
    intro i a n hi
    have h := hIn i hi
    have hcond : ¬ (hostAt hs i).isActive = true := by simp [h]
    rw [scanLoop, if_neg hcond]
    exact ih _ _ _ (Nat.mod_lt _ (Nat.lt_of_le_of_lt (Nat.zero_le i) hi))

lemma scanLoop_inl_active (hs : List Host) (l : Nat) :
    ∀ steps i a n r, scanLoop hs l i steps a n = Sum.inl r →
      (hostAt hs r).isActive = true := by
  intro steps
  induction steps with
  | zero => intro i a n r h; exact absurd h (by simp [scanLoop])
  | succ st ih =>
    intro i a n r h
    by_cases hA : (hostAt hs i).isActive = true
    · rw [scanLoop, if_pos hA] at h
      by_cases h0 : (hostAt hs i).runningQueries = 0
      · rw [if_pos h0] at h
        cases h
        exact hA
      · rw [if_neg h0] at h
        by_cases hlt : (hostAt hs i).runningQueries < n
        · rw [if_pos hlt] at h
          exact ih _ _ _ _ h
        · rw [if_neg hlt] at h
          exact ih _ _ _ _ h
    · rw [scanLoop, if_neg hA] at h
      exact ih _ _ _ _ h

lemma scanLoop_inr_inactive (hs : List Host) (l : Nat) :
    ∀ steps i a n r, scanLoop hs l i steps a n = Sum.inr r →
      (hostAt hs r).isActive = false → r = a := by
  intro steps
  induction steps with
  | zero =>
    intro i a n r h _
    rw [scanLoop] at h
    cases h
    rfl
  | succ st ih =>
    intro i a n r h hin
    by_cases hA : (hostAt hs i).isActive = true
    · rw [scanLoop, if_pos hA] at h
      by_cases h0 : (hostAt hs i).runningQueries = 0
      · rw [if_pos h0] at h
        cases h
      · rw [if_neg h0] at h
        by_cases hlt : (hostAt hs i).runningQueries < n
        · rw [if_pos hlt] at h
          have hri := ih _ _ _ _ h hin
          subst hri
          rw [hA] at hin
          cases hin
        · rw [if_neg hlt] at h
          exact ih _ _ _ _ h hin
    · rw [scanLoop, if_neg hA] at h
      exact ih _ _ _ _ h hin

/-- When every host is active and none has zero load, the scan loop never
returns early, and its final candidate is the least-loaded position among
{the initial candidate a} followed by the scanned positions
i, i+1, ..., i+steps-1 (mod l), ties resolved in favour of the earliest
position in that order. -/
lemma scanLoop_argmin (hs : List Host) (l : Nat) (hl : 0 < l)
    (hAct : ∀ j, j < l → (hostAt hs j).isActive = true)
    (hPos : ∀ j, j < l → (hostAt hs j).runningQueries ≠ 0) :
    ∀ steps i a, i < l → a < l →
      ∃ r, r < l ∧
        scanLoop hs l i steps a ((hostAt hs a).runningQueries) = Sum.inr r ∧
        ((r = a ∧ ∀ k, k < steps →
            (hostAt hs a).runningQueries ≤ (hostAt hs ((i + k) % l)).runningQueries) ∨
         (∃ j, j < steps ∧ r = (i + j) % l ∧
            (hostAt hs r).runningQueries < (hostAt hs a).runningQueries ∧
            (∀ k, k < j →
              (hostAt hs r).runningQueries < (hostAt hs ((i + k) % l)).runningQueries) ∧
            (∀ k, k < steps →
              (hostAt hs r).runningQueries ≤ (hostAt hs ((i + k) % l)).runningQueries))) := by
  intro steps
  induction steps with
  | zero =>
    intro i a hi ha
    exact ⟨a, ha, rfl, Or.inl ⟨rfl, fun k hk => absurd hk (Nat.not_lt_zero k)⟩⟩
  | succ st ih =>
    intro i a hi ha
    have hA := hAct i hi
    have hP := hPos i hi
    have himod : i % l = i := Nat.mod_eq_of_lt hi
    by_cases hlt : (hostAt hs i).runningQueries < (hostAt hs a).runningQueries
    · -- the scanned host is adopted as the new candidate
      obtain ⟨r, hrl, heq, hdisj⟩ := ih ((i + 1) % l) i (Nat.mod_lt _ hl) hi
      refine ⟨r, hrl, ?_, ?_⟩
      · rw [scanLoop, if_pos hA, if_neg hP, if_pos hlt]
        exact heq
      · cases hdisj with
        | inl hcase =>
          obtain ⟨hra, hmin⟩ := hcase
          refine Or.inr ⟨0, Nat.succ_pos st, by rw [Nat.add_zero, himod]; exact hra,
            by rw [hra]; exact hlt, ?_, ?_⟩
          · intro k hk
            exact absurd hk (Nat.not_lt_zero k)
          · intro k hk
            rw [hra]
            cases k with
            | zero => rw [Nat.add_zero, himod]
            | succ k' =>
              rw [← rot_index l i k']
              exact hmin k' (Nat.lt_of_succ_lt_succ hk)
        | inr hcase =>
          obtain ⟨j, hj, hrj, hlt', hstrict, hweak⟩ := hcase
          refine Or.inr ⟨j + 1, Nat.succ_lt_succ hj, ?_, Nat.lt_trans hlt' hlt, ?_, ?_⟩
          · rw [← rot_index l i j]
            exact hrj
          · intro k hk
            cases k with
            | zero => rw [Nat.add_zero, himod]; exact hlt'
            | succ k' =>
              rw [← rot_index l i k']
              exact hstrict k' (Nat.lt_of_succ_lt_succ hk)
          · intro k hk
            cases k with
            | zero => rw [Nat.add_zero, himod]; exact Nat.le_of_lt hlt'
            | succ k' =>
              rw [← rot_index l i k']
              exact hweak k' (Nat.lt_of_succ_lt_succ hk)
    · -- the candidate survives this scanned host
      have hge : (hostAt hs a).runningQueries ≤ (hostAt hs i).runningQueries :=
        Nat.le_of_not_lt hlt
      obtain ⟨r, hrl, heq, hdisj⟩ := ih ((i + 1) % l) a (Nat.mod_lt _ hl) ha
      refine ⟨r, hrl, ?_, ?_⟩
      · rw [scanLoop, if_pos hA, if_neg hP, if_neg hlt]
        exact heq
      · cases hdisj with
        | inl hcase =>
          obtain ⟨hra, hmin⟩ := hcase
          refine Or.inl ⟨hra, ?_⟩
          intro k hk
          cases k with
          | zero => rw [Nat.add_zero, himod]; exact hge
          | succ k' =>
            rw [← rot_index l i k']
            exact hmin k' (Nat.lt_of_succ_lt_succ hk)
        | inr hcase =>
          obtain ⟨j, hj, hrj, hlt', hstrict, hweak⟩ := hcase
          refine Or.inr ⟨j + 1, Nat.succ_lt_succ hj, ?_, hlt', ?_, ?_⟩
          · rw [← rot_index l i j]
            exact hrj
          · intro k hk
            cases k with
            | zero =>
              rw [Nat.add_zero, himod]
              exact Nat.lt_of_lt_of_le hlt' hge
            | succ k' =>
              rw [← rot_index l i k']
              exact hstrict k' (Nat.lt_of_succ_lt_succ hk)
          · intro k hk
            cases k with
            | zero =>
              rw [Nat.add_zero, himod]
              exact Nat.le_of_lt (Nat.lt_of_lt_of_le hlt' hge)
            | succ k' =>
              rw [← rot_index l i k']
              exact hweak k' (Nat.lt_of_succ_lt_succ hk)

/-- Unfolding of cluster.getHost with the rotated start written via
startIdx; holds by definitional unfolding. -/
lemma getHost_unfold (c : Cluster) :
    c.getHost =
      (if (hostAt c.hosts (startIdx c)).runningQueries = 0 ∧
          (hostAt c.hosts (startIdx c)).isActive = true
       then (some (startIdx c), { c with nextIdx := (c.nextIdx + 1) % u32 })
       else
         match scanLoop c.hosts c.hosts.length ((startIdx c + 1) % c.hosts.length)
             (c.hosts.length - 1) (startIdx c)
             ((hostAt c.hosts (startIdx c)).runningQueries) with
         | Sum.inl i => (some i, { c with nextIdx := (c.nextIdx + 1) % u32 })
         | Sum.inr j =>
           if (hostAt c.hosts j).isActive = true
           then (some j, { c with nextIdx := (c.nextIdx + 1) % u32 })
           else (none, { c with nextIdx := (c.nextIdx + 1) % u32 })) := rfl

/-- C6: whenever getHost() returns a host, that host is active at the
moment of return (scope.go lines 252-282: the fast path, the early return
inside the scan, and the final return are all guarded by isActive). -/
theorem getHost_some_active (c : Cluster) (i : Nat)
    (h : (c.getHost).1 = some i) :
    (hostAt c.hosts i).isActive = true := by
  rw [getHost_unfold] at h
  by_cases hfast : (hostAt c.hosts (startIdx c)).runningQueries = 0 ∧
      (hostAt c.hosts (startIdx c)).isActive = true
  · rw [if_pos hfast] at h
    simp only [Option.some.injEq] at h
    rw [← h]
    exact hfast.2
  · rw [if_neg hfast] at h
    cases hE : scanLoop c.hosts c.hosts.length ((startIdx c + 1) % c.hosts.length)
        (c.hosts.length - 1) (startIdx c)
        ((hostAt c.hosts (startIdx c)).runningQueries) with
    | inl i0 =>
      rw [hE] at h
      simp only [Option.some.injEq] at h
      rw [← h]
      exact scanLoop_inl_active c.hosts c.hosts.length _ _ _ _ _ hE
    | inr j =>
      rw [hE] at h
      by_cases hAj : (hostAt c.hosts j).isActive = true
      · simp only [if_pos hAj, Option.some.injEq] at h
        rw [← h]
        exact hAj
      · simp only [if_neg hAj] at h
        cases h

/-- Witness for getHost_some_active on a two-host cluster whose second
host is selected. -/
theorem getHost_some_active_witness :
    ((Cluster.mk 0
        [{ penalty := 0, active := 0,
           addr := { scheme := "http", host := "a:8123", path := "" },
           queryCounter := 0 },
         { penalty := 0, active := 1,
           addr := { scheme := "http", host := "b:8123", path := "" },
           queryCounter := 0 }] [] "" "" 0).getHost).1 = some 1 ∧
    (hostAt (Cluster.mk 0
        [{ penalty := 0, active := 0,
           addr := { scheme := "http", host := "a:8123", path := "" },
           queryCounter := 0 },
         { penalty := 0, active := 1,
           addr := { scheme := "http", host := "b:8123", path := "" },
           queryCounter := 0 }] [] "" "" 0).hosts 1).isActive = true :=
  ⟨by decide, getHost_some_active _ 1 (by decide)⟩

/-- C8: when every host is active and none has zero load, getHost()
returns a host of minimum effective load (counter plus penalty), and ties
between equal minimum loads go to the host scanned earlier in the
circular order starting at the rotated cursor position. -/
theorem getHost_least_loaded (c : Cluster) (hl : 0 < c.hosts.length)
    (hAct : ∀ j, j < c.hosts.length → (hostAt c.hosts j).isActive = true)
    (hPos : ∀ j, j < c.hosts.length → (hostAt c.hosts j).runningQueries ≠ 0) :
    ∃ m, m < c.hosts.length ∧
      (c.getHost).1 = some ((startIdx c + m) % c.hosts.length) ∧
      (∀ k, k < c.hosts.length →
        (rotHost c m).runningQueries ≤ (rotHost c k).runningQueries) ∧
      (∀ k, k < m → (rotHost c m).runningQueries < (rotHost c k).runningQueries) := by
  have hstart : startIdx c < c.hosts.length := Nat.mod_lt _ hl
  have hfast : ¬ ((hostAt c.hosts (startIdx c)).runningQueries = 0 ∧
      (hostAt c.hosts (startIdx c)).isActive = true) :=
    fun hc => hPos _ hstart hc.1
  obtain ⟨r, hrl, heq, hdisj⟩ :=
    scanLoop_argmin c.hosts c.hosts.length hl hAct hPos
      (c.hosts.length - 1) ((startIdx c + 1) % c.hosts.length) (startIdx c)
      (Nat.mod_lt _ hl) hstart
  have hgh : (c.getHost).1 = some r := by
    rw [getHost_unfold, if_neg hfast, heq]
    show (if (hostAt c.hosts r).isActive = true
          then (some r, { c with nextIdx := (c.nextIdx + 1) % u32 })
          else (none, { c with nextIdx := (c.nextIdx + 1) % u32 })).1 = some r
    rw [if_pos (hAct r hrl)]
  cases hdisj with
  | inl hcase =>
    obtain ⟨hra, hmin⟩ := hcase
    refine ⟨0, hl, ?_, ?_, ?_⟩
    · rw [Nat.add_zero, Nat.mod_eq_of_lt hstart, ← hra]
      exact hgh
    · intro k hk
      simp only [rotHost]
      rw [Nat.add_zero, Nat.mod_eq_of_lt hstart]
      cases k with
      | zero =>
        rw [Nat.add_zero, Nat.mod_eq_of_lt hstart]
      | succ k' =>
        rw [← rot_index c.hosts.length (startIdx c) k']
        exact hmin k' (by omega)
    · intro k hk
      exact absurd hk (Nat.not_lt_zero k)
  | inr hcase =>
    obtain ⟨j, hj, hrj, hlt', hstrict, hweak⟩ := hcase
    have hjl : j + 1 < c.hosts.length := by omega
    have hrj' : r = (startIdx c + (j + 1)) % c.hosts.length := by
      rw [← rot_index c.hosts.length (startIdx c) j]
      exact hrj
    refine ⟨j + 1, hjl, ?_, ?_, ?_⟩
    · rw [← hrj']
      exact hgh
    · intro k hk
      simp only [rotHost]
      rw [← hrj']
      cases k with
      | zero =>
        rw [Nat.add_zero, Nat.mod_eq_of_lt hstart]
        exact Nat.le_of_lt hlt'
      | succ k' =>
        rw [← rot_index c.hosts.length (startIdx c) k']
        exact hweak k' (by omega)
    · intro k hk
      simp only [rotHost]
      rw [← hrj']
      cases k with
      | zero =>
        rw [Nat.add_zero, Nat.mod_eq_of_lt hstart]
        exact hlt'
      | succ k' =>
        rw [← rot_index c.hosts.length (startIdx c) k']
        exact hstrict k' (by omega)

/-! ### Concrete clusters for the end-to-end selection scenarios -/

/-- An idle active host (0 running queries, no penalty) named by its address. -/
def idleHost (nm : String) : Host :=
  { penalty := 0, active := 1,
    addr := { scheme := "http", host := nm, path := "" }, queryCounter := 0 }

/-- The S1 cluster: hosts A, B, C (indices 0, 1, 2), all active and idle,
cursor initially 0. -/
def s1Cluster : Cluster :=
  { nextIdx := 0, hosts := [idleHost "a:8123", idleHost "b:8123", idleHost "c:8123"],
    users := [], killQueryUserName := "", killQueryUserPassword := "",
    heartBeatInterval := 0 }

/-- C7: on the S1 cluster (hosts A, B, C all active with zero load,
nextIdx initially 0) four successive getHost() calls return the hosts at
indices 1, 2, 0, 1 — that is B, C, A, B — each via the fast path at the
freshly incremented cursor, which ends at 4. -/
theorem getHost_round_robin_S1 :
    ((s1Cluster.getHost).1 = some 1) ∧
    (((s1Cluster.getHost).2.getHost).1 = some 2) ∧
    ((((s1Cluster.getHost).2.getHost).2.getHost).1 = some 0) ∧
    (((((s1Cluster.getHost).2.getHost).2.getHost).2.getHost).1 = some 1) ∧
    ((((s1Cluster.getHost).2.getHost).2.getHost).2.getHost).2.nextIdx = 4 := by
  decide

/-- An active host with the given counter value. -/
def loadedHost (nm : String) (n : Nat) : Host :=
  { penalty := 0, active := 1,
    addr := { scheme := "http", host := nm, path := "" }, queryCounter := n }

/-- The S2 cluster: A with 3 running queries, B with 1, C with 2, all
active; nextIdx = 2 so that the next getHost() call starts at A. -/
def s2Cluster : Cluster :=
  { nextIdx := 2,
    hosts := [loadedHost "a:8123" 3, loadedHost "b:8123" 1, loadedHost "c:8123" 2],
    users := [], killQueryUserName := "", killQueryUserPassword := "",
    heartBeatInterval := 0 }

/-- Witness for getHost_least_loaded: on the S2 cluster the call returns
index 1 (host B, the unique minimum load). -/
theorem getHost_least_loaded_witness :
    (s2Cluster.getHost).1 = some 1 ∧
    (∃ m, m < s2Cluster.hosts.length ∧
      (s2Cluster.getHost).1 = some ((startIdx s2Cluster + m) % s2Cluster.hosts.length) ∧
      (∀ k, k < s2Cluster.hosts.length →
        (rotHost s2Cluster m).runningQueries ≤ (rotHost s2Cluster k).runningQueries) ∧
      (∀ k, k < m →
        (rotHost s2Cluster m).runningQueries < (rotHost s2Cluster k).runningQueries)) :=
  ⟨by decide, getHost_least_loaded s2Cluster (by decide) (by decide) (by decide)⟩

/-! ### C1: when does getHost return none? -/

/-- An inactive idle host. -/
def downHost (nm : String) : Host :=
  { penalty := 0, active := 0,
    addr := { scheme := "http", host := nm, path := "" }, queryCounter := 0 }

/-- A cluster refuting the claim that none is returned only when every
host is inactive: the rotated start lands on the inactive zero-load host
at index 0, and the active host at index 1 has load 1, which is not
strictly below the start candidate's load 0, so the start candidate is
never replaced and the final activity check fails. -/
def c1Cluster : Cluster :=
  { nextIdx := 1, hosts := [downHost "a:8123", loadedHost "b:8123" 1],
    users := [], killQueryUserName := "", killQueryUserPassword := "",
    heartBeatInterval := 0 }

/-- Counterexample to C1 as stated: c1Cluster has a non-empty host list
with an active host (index 1), yet getHost() returns none. -/
theorem getHost_none_with_active_host_cex :
    c1Cluster.hosts ≠ [] ∧
    (hostAt c1Cluster.hosts 1).isActive = true ∧
    (c1Cluster.getHost).1 = none := by
  decide

/-- C1 (amended): on a non-empty cluster, if every host is inactive then
getHost() returns none; and whenever getHost() returns none the host at
the rotated cursor position was inactive.  The converse of the first part
fails (see the counterexample): an active host may exist while none is
returned, because an inactive start candidate is only replaced by an
active host of strictly smaller load. -/
theorem getHost_none_characterization (c : Cluster) (hl : 0 < c.hosts.length) :
    ((∀ j, j < c.hosts.length → (hostAt c.hosts j).isActive = false) →
      (c.getHost).1 = none) ∧
    ((c.getHost).1 = none → (hostAt c.hosts (startIdx c)).isActive = false) := by
  have hstart : startIdx c < c.hosts.length := Nat.mod_lt _ hl
  constructor
  · intro hIn
    have h0 : (hostAt c.hosts (startIdx c)).isActive = false := hIn _ hstart
    have hfast : ¬ ((hostAt c.hosts (startIdx c)).runningQueries = 0 ∧
        (hostAt c.hosts (startIdx c)).isActive = true) := by
      intro hc
      rw [h0] at hc
      exact absurd hc.2 (by simp)
    have hscan := scanLoop_all_inactive c.hosts c.hosts.length hIn
      (c.hosts.length - 1) ((startIdx c + 1) % c.hosts.length) (startIdx c)
      ((hostAt c.hosts (startIdx c)).runningQueries) (Nat.mod_lt _ hl)
    rw [getHost_unfold, if_neg hfast, hscan]
    show (if (hostAt c.hosts (startIdx c)).isActive = true
          then (some (startIdx c), { c with nextIdx := (c.nextIdx + 1) % u32 })
          else (none, { c with nextIdx := (c.nextIdx + 1) % u32 })).1 = none
    rw [if_neg (by rw [h0]; simp)]
  · intro hnone
    rw [getHost_unfold] at hnone
    by_cases hfast : (hostAt c.hosts (startIdx c)).runningQueries = 0 ∧
        (hostAt c.hosts (startIdx c)).isActive = true
    · rw [if_pos hfast] at hnone
      exact Option.noConfusion hnone
    · rw [if_neg hfast] at hnone
      cases hE : scanLoop c.hosts c.hosts.length ((startIdx c + 1) % c.hosts.length)
          (c.hosts.length - 1) (startIdx c)
          ((hostAt c.hosts (startIdx c)).runningQueries) with
      | inl i0 =>
        rw [hE] at hnone
        exact Option.noConfusion hnone
      | inr j =>
        rw [hE] at hnone
        have hnone' : (if (hostAt c.hosts j).isActive = true
            then (some j, { c with nextIdx := (c.nextIdx + 1) % u32 })
            else (none, { c with nextIdx := (c.nextIdx + 1) % u32 })).1 = none := hnone
        by_cases hAj : (hostAt c.hosts j).isActive = true
        · rw [if_pos hAj] at hnone'
          exact Option.noConfusion hnone'
        · have hjf : (hostAt c.hosts j).isActive = false := by
            cases hB : (hostAt c.hosts j).isActive
            · rfl
            · exact absurd hB hAj
          have hja := scanLoop_inr_inactive c.hosts c.hosts.length _ _ _ _ _ hE hjf
          rw [← hja]
          exact hjf

/-- A one-host cluster whose only host is inactive. -/
def c1AllDown : Cluster :=
  { nextIdx := 0, hosts := [downHost "a:8123"], users := [],
    killQueryUserName := "", killQueryUserPassword := "", heartBeatInterval := 0 }

/-- Witness for getHost_none_characterization: with every host of
c1AllDown inactive, getHost() returns none. -/
theorem getHost_none_characterization_witness :
    0 < c1AllDown.hosts.length ∧ (c1AllDown.getHost).1 = none :=
  ⟨by decide, (getHost_none_characterization c1AllDown (by decide)).1 (by decide)⟩

/-! ## Scope admission and release (scope.go lines 52-75) -/

/-- The error message of the proxy-user limit check, Sprintf with %q and %d. -/
def limitsUserMsg (nm : String) (limit : Nat) : String :=
  "limits for user " ++ goQuote nm ++
    " are exceeded: maxConcurrentQueries limit: " ++ Nat.repr limit

/-- The error message of the cluster-user limit check. -/
def limitsClusterUserMsg (nm : String) (limit : Nat) : String :=
  "limits for cluster user " ++ goQuote nm ++
    " are exceeded: maxConcurrentQueries limit: " ++ Nat.repr limit

/-- Embedding of scope.dec: decrement the host, user and cluster-user
counters. -/
def Scope.dec (s : Scope) : Scope :=
  { s with
    host := { s.host with queryCounter := qcDec s.host.queryCounter },
    user := { s.user with queryCounter := qcDec s.user.queryCounter },
    clusterUser := { s.clusterUser with queryCounter := qcDec s.clusterUser.queryCounter } }

/-- Embedding of scope.inc: increment all three counters, then check the
proxy-user and cluster-user ceilings against the post-increment values
(the cluster-user check may overwrite the proxy-user error); on any error
call dec and return it.  The first component is the error (none on
success), the second the updated scope. -/
def Scope.inc (s : Scope) : Option String × Scope :=
  let uq := qcInc s.user.queryCounter
  let cq := qcInc s.clusterUser.queryCounter
  let s1 : Scope :=
    { s with
      user := { s.user with queryCounter := uq },
      clusterUser := { s.clusterUser with queryCounter := cq },
      host := { s.host with queryCounter := qcInc s.host.queryCounter } }
  let err0 : Option String :=
    if s.user.maxConcurrentQueries > 0 ∧ uq > s.user.maxConcurrentQueries
    then some (limitsUserMsg s.user.name s.user.maxConcurrentQueries)
    else none
  let err : Option String :=
    if s.clusterUser.maxConcurrentQueries > 0 ∧ cq > s.clusterUser.maxConcurrentQueries
    then some (limitsClusterUserMsg s.clusterUser.name s.clusterUser.maxConcurrentQueries)
    else err0
  match err with
  | some e => (some e, s1.dec)
  | none => (none, s1)

/-! ## Request decoration (scope.go lines 116-148) -/

/-- The pieces of *http.Request that decorateRequest touches.  urlQuery is
the parsed query string as an ordered list of key-value pairs (Go's
url.Values with the first value of each key relevant to Get). -/
structure Request where
  urlScheme : String
  urlHost : String
  urlPath : String
  urlQuery : List (String × String)
  basicUser : String
  basicPassword : String
  userAgent : String
  remoteAddr : String
  localAddr : Option String
deriving DecidableEq

/-- Embedding of url.Values.Get: the first value stored for the key, or
the empty string when the key is absent. -/
def getParam (ps : List (String × String)) (k : String) : String :=
  match ps.find? (fun p => p.1 == k) with
  | some p => p.2
  | none => ""

/-- The first value stored for a key, or none when the key is absent. -/
def getParamOpt (ps : List (String × String)) (k : String) : Option String :=
  (ps.find? (fun p => p.1 == k)).map (fun p => p.2)

/-- Whether the query string carries the key at all. -/
def hasParam (ps : List (String × String)) (k : String) : Bool :=
  (ps.find? (fun p => p.1 == k)).isSome

/-- Embedding of scope.decorateRequest: build a fresh parameter map with
query_id set to the decimal scope id, copy the inbound query parameter
only when its (first) value is non-empty, overwrite Basic auth with the
cluster user, point scheme and host at the selected backend and extend
the User-Agent.  strconv.Itoa(int(s.id)) is decimal rendering of the
uint32 id (64-bit int platform). -/
def Scope.decorateRequest (s : Scope) (req : Request) : Request :=
  let q := getParam req.urlQuery "query"
  let params : List (String × String) :=
    if q.length > 0
    then [("query_id", Nat.repr s.id), ("query", q)]
    else [("query_id", Nat.repr s.id)]
  let localAddr := match req.localAddr with
    | some a => a
    | none => "unknown"
  { req with
    urlQuery := params,
    basicUser := s.clusterUser.name,
    basicPassword := s.clusterUser.password,
    urlScheme := s.host.addr.scheme,
    urlHost := s.host.addr.host,
    userAgent := "RemoteAddr: " ++ req.remoteAddr ++ "; LocalAddr: " ++ localAddr ++
      "; CHProxy-User: " ++ s.user.name ++ "; CHProxy-ClusterUser: " ++
      s.clusterUser.name ++ "; " ++ req.userAgent }

/-- The outbound query parameters exactly as the specification words
them: query_id plus the inbound query parameter whenever the inbound
request carried one (present key), kept for comparison with the embedding
of the source. -/
def decorateParamsSpec (id : Nat) (inbound : List (String × String)) :
    List (String × String) :=
  if hasParam inbound "query" = true
  then [("query_id", Nat.repr id), ("query", getParam inbound "query")]
  else [("query_id", Nat.repr id)]

/-! ## Remote cancellation (scope.go lines 79-114) -/

/-- The literal KILL QUERY payload with the decimal scope id in single
quotes. -/
def killQueryText (id : Nat) : String :=
  "KILL QUERY WHERE query_id = " ++ squote ++ Nat.repr id ++ squote

/-- The HTTP request that killQuery issues: method, target address, body
and Basic-auth credentials. -/
structure KillRequest where
  method : String
  url : String
  body : String
  basicUser : String
  basicPassword : String
deriving DecidableEq

/-- Embedding of the request-composition phase of scope.killQuery
(scope.go lines 79-98): none when the cluster has no cancellation user
configured (killQuery returns success without issuing any request),
otherwise the POST to the host address with the KILL QUERY payload and
the cancellation credentials. -/
def Scope.killQueryRequest (s : Scope) : Option KillRequest :=
  if s.cluster.killQueryUserName.length = 0 then none
  else some
    { method := "POST", url := URL.render s.host.addr, body := killQueryText s.id,
      basicUser := s.cluster.killQueryUserName,
      basicPassword := s.cluster.killQueryUserPassword }

/-- The error message built for an unexpected response status, Sprintf
with %q, %q, %d, %q. -/
def killQueryStatusMsg (query addr : String) (status : Nat) (body : String) : String :=
  "unexpected status code returned from query " ++ goQuote query ++ " at " ++
    goQuote addr ++ ": " ++ Nat.repr status ++ ". Response body: " ++ goQuote body

/-- Embedding of the response-handling phase of scope.killQuery (scope.go
lines 106-113), reached when credentials are configured and the POST got
a response: error with the body snippet unless the status code is
http.StatusOK (200). -/
def killQueryHandleResponse (query addr : String) (status : Nat) (body : String) :
    Except String Unit :=
  if status ≠ 200 then Except.error (killQueryStatusMsg query addr status body)
  else Except.ok ()

/-! ### C4: admission control -/

/-- Definitional unfolding of Scope.inc with the overwrite composition of
the two limit checks made explicit. -/
lemma scope_inc_eq (s : Scope) :
    s.inc =
      match (if s.clusterUser.maxConcurrentQueries > 0 ∧
                qcInc s.clusterUser.queryCounter > s.clusterUser.maxConcurrentQueries
             then some (limitsClusterUserMsg s.clusterUser.name
               s.clusterUser.maxConcurrentQueries)
             else
               if s.user.maxConcurrentQueries > 0 ∧
                  qcInc s.user.queryCounter > s.user.maxConcurrentQueries
               then some (limitsUserMsg s.user.name s.user.maxConcurrentQueries)
               else none) with
      | some e => (some e, Scope.dec
          { s with
            user := { s.user with queryCounter := qcInc s.user.queryCounter },
            clusterUser :=
              { s.clusterUser with queryCounter := qcInc s.clusterUser.queryCounter },
            host := { s.host with queryCounter := qcInc s.host.queryCounter } })
      | none => (none,
          { s with
            user := { s.user with queryCounter := qcInc s.user.queryCounter },
            clusterUser :=
              { s.clusterUser with queryCounter := qcInc s.clusterUser.queryCounter },
            host := { s.host with queryCounter := qcInc s.host.queryCounter } }) := rfl

/-- Releasing right after incrementing restores the scope exactly (all
counters being genuine uint32 values). -/
lemma scope_dec_inc (s : Scope)
    (hu : s.user.queryCounter < u32) (hcu : s.clusterUser.queryCounter < u32)
    (hh : s.host.queryCounter < u32) :
    Scope.dec
      { s with
        user := { s.user with queryCounter := qcInc s.user.queryCounter },
        clusterUser :=
          { s.clusterUser with queryCounter := qcInc s.clusterUser.queryCounter },
        host := { s.host with queryCounter := qcInc s.host.queryCounter } } = s := by
  unfold Scope.dec
  simp only [qcDec_qcInc _ hu, qcDec_qcInc _ hcu, qcDec_qcInc _ hh]

/-- C4: admit() returns an error exactly when a configured proxy-user or
cluster-user ceiling is exceeded by the post-increment count; a failed
admit restores the whole scope (all three counters return to their
pre-admit values), and a successful admit leaves each counter exactly one
greater in uint32 arithmetic. -/
theorem scope_inc_admission (s : Scope)
    (hu : s.user.queryCounter < u32) (hcu : s.clusterUser.queryCounter < u32)
    (hh : s.host.queryCounter < u32) :
    ((s.inc).1 ≠ none ↔
      (s.user.maxConcurrentQueries > 0 ∧
        qcInc s.user.queryCounter > s.user.maxConcurrentQueries) ∨
      (s.clusterUser.maxConcurrentQueries > 0 ∧
        qcInc s.clusterUser.queryCounter > s.clusterUser.maxConcurrentQueries)) ∧
    ((s.inc).1 ≠ none → (s.inc).2 = s) ∧
    ((s.inc).1 = none →
      (s.inc).2.user.queryCounter = (s.user.queryCounter + 1) % u32 ∧
      (s.inc).2.clusterUser.queryCounter = (s.clusterUser.queryCounter + 1) % u32 ∧
      (s.inc).2.host.queryCounter = (s.host.queryCounter + 1) % u32) := by
  by_cases hc2 : s.clusterUser.maxConcurrentQueries > 0 ∧
      qcInc s.clusterUser.queryCounter > s.clusterUser.maxConcurrentQueries
  · have hval : s.inc =
        (some (limitsClusterUserMsg s.clusterUser.name
          s.clusterUser.maxConcurrentQueries), s) := by
      rw [scope_inc_eq]
      simp only [if_pos hc2]
      rw [scope_dec_inc s hu hcu hh]
    rw [hval]
    refine ⟨iff_of_true (by simp) (Or.inr hc2), fun _ => rfl, fun h => absurd h (by simp)⟩
  · by_cases hc1 : s.user.maxConcurrentQueries > 0 ∧
        qcInc s.user.queryCounter > s.user.maxConcurrentQueries
    · have hval : s.inc =
          (some (limitsUserMsg s.user.name s.user.maxConcurrentQueries), s) := by
        rw [scope_inc_eq]
        simp only [if_neg hc2, if_pos hc1]
        rw [scope_dec_inc s hu hcu hh]
      rw [hval]
      refine ⟨iff_of_true (by simp) (Or.inl hc1), fun _ => rfl, fun h => absurd h (by simp)⟩
    · have hval : s.inc =
          (none,
            { s with
              user := { s.user with queryCounter := qcInc s.user.queryCounter },
              clusterUser :=
                { s.clusterUser with queryCounter := qcInc s.clusterUser.queryCounter },
              host := { s.host with queryCounter := qcInc s.host.queryCounter } }) := by
        rw [scope_inc_eq]
        simp only [if_neg hc2, if_neg hc1]
      rw [hval]
      refine ⟨iff_of_false (by simp) ?_, fun h => absurd rfl h, fun _ => ⟨rfl, rfl, rfl⟩⟩
      rintro (h | h)
      · exact hc1 h
      · exact hc2 h

/-- A proxy user at its concurrency ceiling (limit 1, one query already
running). -/
def c4User : User :=
  { toUser := "", toCluster := "", denyHTTP := false, denyHTTPS := false,
    allowedNetworks := [], name := "alice", password := "", maxExecutionTime := 0,
    maxConcurrentQueries := 1, queryCounter := 1 }

/-- An unlimited cluster user with no queries running. -/
def c4ClusterUser : ClusterUser :=
  { name := "cu", password := "", maxExecutionTime := 0,
    maxConcurrentQueries := 0, queryCounter := 0 }

/-- A scope whose proxy user is at its ceiling. -/
def c4Scope : Scope :=
  { id := 1, host := idleHost "a:8123", cluster := s1Cluster,
    user := c4User, clusterUser := c4ClusterUser }

/-- Witness for scope_inc_admission: the scope at its proxy-user ceiling
is rejected by admit(). -/
theorem scope_inc_admission_witness : (Scope.inc c4Scope).1 ≠ none :=
  ((scope_inc_admission c4Scope (by decide) (by decide) (by decide)).1).mpr
    (Or.inl (by decide))

/-! ### C3: request decoration -/

/-- An inbound request carrying a query parameter whose value is empty. -/
def c3Req : Request :=
  { urlScheme := "http", urlHost := "in", urlPath := "/",
    urlQuery := [("query", "")], basicUser := "", basicPassword := "",
    userAgent := "ua", remoteAddr := "r", localAddr := none }

/-- Counterexample to C3 as stated: the inbound request has a query
parameter (with empty value), yet after decoration the outbound query
parameters do not carry it, differing from the parameter map the
specification prescribes. -/
theorem decorate_empty_query_param_cex :
    hasParam c3Req.urlQuery "query" = true ∧
    getParamOpt ((Scope.decorateRequest c4Scope c3Req).urlQuery) "query" = none ∧
    (Scope.decorateRequest c4Scope c3Req).urlQuery ≠
      decorateParamsSpec c4Scope.id c3Req.urlQuery := by
  decide

/-- C3 (amended): after decorate(request) the URL query parameters are
exactly query_id bound to the decimal scope id, plus query copied
verbatim from the inbound request when the inbound request had a query
parameter with a non-empty (first) value; every other inbound parameter
is dropped, as is an empty-valued query parameter. -/
theorem decorateRequest_query_params (s : Scope) (req : Request) (k : String) :
    getParamOpt ((s.decorateRequest req).urlQuery) k =
      if k = "query_id" then some (Nat.repr s.id)
      else if k = "query" ∧ 0 < (getParam req.urlQuery "query").length
           then some (getParam req.urlQuery "query")
      else none := by
  have hq : (s.decorateRequest req).urlQuery =
      if 0 < (getParam req.urlQuery "query").length
      then [("query_id", Nat.repr s.id), ("query", getParam req.urlQuery "query")]
      else [("query_id", Nat.repr s.id)] := by
    show (if (getParam req.urlQuery "query").length > 0
          then [("query_id", Nat.repr s.id), ("query", getParam req.urlQuery "query")]
          else [("query_id", Nat.repr s.id)]) =
        if 0 < (getParam req.urlQuery "query").length
        then [("query_id", Nat.repr s.id), ("query", getParam req.urlQuery "query")]
        else [("query_id", Nat.repr s.id)]
    rfl
  rw [hq]
  by_cases h1 : k = "query_id"
  · subst h1
    by_cases hlen : 0 < (getParam req.urlQuery "query").length
    · rw [if_pos hlen]
      simp [getParamOpt, List.find?]
    · rw [if_neg hlen]
      simp [getParamOpt, List.find?]
  · have hk1 : (("query_id" : String) == k) = false :=
      beq_eq_false_iff_ne.mpr (fun h => h1 h.symm)
    by_cases h2 : k = "query"
    · subst h2
      by_cases hlen : 0 < (getParam req.urlQuery "query").length
      · rw [if_pos hlen]
        simp [getParamOpt, List.find?, hk1, h1, hlen]
      · rw [if_neg hlen]
        simp [getParamOpt, List.find?, hk1, h1, hlen]
    · have hk2 : (("query" : String) == k) = false :=
        beq_eq_false_iff_ne.mpr (fun h => h2 h.symm)
      by_cases hlen : 0 < (getParam req.urlQuery "query").length
      · rw [if_pos hlen]
        simp [getParamOpt, List.find?, hk1, hk2, h1, h2]
      · rw [if_neg hlen]
        simp [getParamOpt, List.find?, hk1, hk2, h1, h2]

/-! ### C2 and C9: remote cancellation -/

/-- Counterexample to C2 as stated: status 204 is in the 2xx class, yet
the response handler returns the unexpected-status error, because the
code compares against http.StatusOK (200) exactly. -/
theorem killQuery_status_2xx_cex :
    (200 ≤ 204 ∧ 204 < 300) ∧
    killQueryHandleResponse (killQueryText 7) "http://h1:8123" 204 "" =
      Except.error (killQueryStatusMsg (killQueryText 7) "http://h1:8123" 204 "") :=
  ⟨by decide, rfl⟩

/-- C2 (amended): with cancellation credentials configured and a response
received, killQuery succeeds exactly when the status code equals 200
(http.StatusOK); any other status, 2xx included, yields the
unexpected-status error carrying the response body snippet. -/
theorem killQuery_status_ok_iff_200 (query addr body : String) (status : Nat) :
    killQueryHandleResponse query addr status body =
      if status = 200 then Except.ok ()
      else Except.error (killQueryStatusMsg query addr status body) := by
  by_cases h : status = 200
  · simp [killQueryHandleResponse, h]
  · simp [killQueryHandleResponse, h]

/-- C9: killQuery() issues no request and succeeds when the cluster has
no cancellation user; otherwise it composes an HTTP POST to the host
address whose body is KILL QUERY WHERE query_id = (the decimal scope id
in single quotes), with Basic auth from the cluster's cancellation
credentials. -/
theorem killQueryRequest_composition (s : Scope) :
    (s.cluster.killQueryUserName.length = 0 → s.killQueryRequest = none) ∧
    (s.cluster.killQueryUserName.length ≠ 0 →
      s.killQueryRequest = some
        { method := "POST", url := URL.render s.host.addr,
          body := "KILL QUERY WHERE query_id = " ++ squote ++ Nat.repr s.id ++ squote,
          basicUser := s.cluster.killQueryUserName,
          basicPassword := s.cluster.killQueryUserPassword }) := by
  constructor
  · intro h
    simp [Scope.killQueryRequest, h]
  · intro h
    simp [Scope.killQueryRequest, killQueryText, h]

/-- The S5 scope: id 7, host http://h1:8123, cancellation credentials
configured on the cluster. -/
def s5Cluster : Cluster :=
  { nextIdx := 0, hosts := [idleHost "h1:8123"], users := [],
    killQueryUserName := "default", killQueryUserPassword := "pw",
    heartBeatInterval := 0 }

/-- The S5 scope itself. -/
def s5Scope : Scope :=
  { id := 7, host := idleHost "h1:8123", cluster := s5Cluster,
    user := c4User, clusterUser := c4ClusterUser }

/-- Witness for killQueryRequest_composition: the S5 scope yields a POST
to http://h1:8123 with the KILL QUERY body for id 7 and the configured
credentials. -/
theorem killQueryRequest_composition_witness :
    s5Scope.cluster.killQueryUserName.length ≠ 0 ∧
    s5Scope.killQueryRequest = some
      { method := "POST", url := "http://h1:8123",
        body := "KILL QUERY WHERE query_id = " ++ squote ++ "7" ++ squote,
        basicUser := "default", basicPassword := "pw" } :=
  ⟨by decide,
    ((killQueryRequest_composition s5Scope).2 (by decide)).trans (by decide)⟩
